import Mathlib

/-!
Shallow embedding of the fetch/extract/persist core of Price-Monitor-Pro
(src/asyncPriceMonitorClass.py, src/syncPriceMonitorClass.py,
src/database_manager.py), together with theorems settling the frozen claims
about its specification.  Machine floats are modelled by exact rationals,
with the float inf sentinel of the synchronous scrapers modelled as a
dedicated constructor.  String operations are modelled on the underlying
character lists so that every definition evaluates by kernel reduction.
-/

/-- Python str.strip with no argument: remove leading and trailing
whitespace. -/
def trimL (cs : List Char) : List Char :=
  ((cs.dropWhile Char.isWhitespace).reverse.dropWhile Char.isWhitespace).reverse

/-- Value of a list of decimal digit characters, most significant first. -/
def digitsVal (ds : List Char) : ℕ :=
  ds.foldl (fun a c => 10 * a + (c.toNat - 48)) 0

/-- Model of the Python float constructor on the fragment its scraper inputs
live in: digits with at most one dot and at least one digit.  Inputs outside
this fragment (exponents, inf, nan, underscores between digits) never arise
from the scraped price strings and are mapped to none.  The value of a
string ddd.ff is the exact rational with numerator ddd ++ ff over the
matching power of ten. -/
def pyFloatCore (cs : List Char) : Option ℚ :=
  let intPart := cs.takeWhile Char.isDigit
  let rest := cs.dropWhile Char.isDigit
  match rest with
  | [] => if intPart.isEmpty then none else some (mkRat (digitsVal intPart) 1)
  | '.' :: frac =>
    if frac.all Char.isDigit && !(intPart.isEmpty && frac.isEmpty) then
      some (mkRat (digitsVal (intPart ++ frac)) (10 ^ frac.length))
    else none
  | _ => none

/-- Python float applied to a character list: surrounding whitespace is
stripped and an optional sign is allowed before the digits. -/
def pyFloatL (cs : List Char) : Option ℚ :=
  match trimL cs with
  | '+' :: t => pyFloatCore t
  | '-' :: t => (pyFloatCore t).map (fun q => -q)
  | t => pyFloatCore t

/-- Python float applied to a string. -/
def pyFloat (s : String) : Option ℚ :=
  pyFloatL s.data

/-- The re.sub call of the scrapers with the class of every character that is
neither a digit nor a dot, replaced by the empty string. -/
def stripPrice (cs : List Char) : List Char :=
  cs.filter (fun c => c.isDigit || c = '.')

/-- Split a character list at every dot, as the Python split method: empty
fields are kept, and the empty list yields one empty field. -/
def splitOnDot : List Char → List (List Char)
  | [] => [[]]
  | c :: rest =>
    let r := splitOnDot rest
    if c = '.' then [] :: r
    else
      match r with
      | h :: t => (c :: h) :: t
      | [] => [[c]]

/-- Join character lists with a dot between fields, as the Python join
method on a dot. -/
def joinDots : List (List Char) → List Char
  | [] => []
  | [p] => p
  | p :: rest => p ++ '.' :: joinDots rest

/-- The conditional line of AsyncAmazonScraper.get_price: when more than one
dot remains, join the last two dot-separated fields with a dot, otherwise
keep the text. -/
def multiDotFix (t : List Char) : List Char :=
  if 1 < (t.filter (fun c => c = '.')).length then
    joinDots ((splitOnDot t).drop ((splitOnDot t).length - 2))
  else t

/-- AsyncAmazonScraper.get_price normalization: strip the matched text, drop
every character that is not a digit or a dot, then apply the multi-dot
rule. -/
def amazonNormalize (cs : List Char) : List Char :=
  multiDotFix (stripPrice (trimL cs))

/-- AsyncAmazonScraper.get_price: the argument is the text of the first
matching selector of its chain, none when no selector matched; every failure
inside the try block, including a parse failure, is caught and yields none. -/
def asyncAmazonGetPrice (matched : Option String) : Option ℚ :=
  match matched with
  | none => none
  | some s => pyFloatCore (amazonNormalize s.data)

/-- AsyncEbayScraper.get_price: a primary selector match is stripped of
non-digit non-dot characters and parsed with no multi-dot handling; when no
primary selector matches, the text found by the dollar-amount regex fallback
is used; every failure yields none. -/
def asyncEbayGetPrice (matched fallback : Option String) : Option ℚ :=
  match matched with
  | some s => pyFloatCore (stripPrice (trimL s.data))
  | none =>
    match fallback with
    | some t => pyFloatCore (stripPrice t.data)
    | none => none

/-- Result of the synchronous scrapers: a parsed value or the float inf
sentinel that they return on any failure. -/
inductive SyncPrice
  | val (q : ℚ)
  | inf
deriving DecidableEq

/-- AmazonScraper.get_price (sync): drops the first two characters of the
matched text, removes every comma and parses; a missing element or a parse
failure returns the inf sentinel. -/
def syncAmazonGetPrice (matched : Option String) : SyncPrice :=
  match matched with
  | none => SyncPrice.inf
  | some s =>
    match pyFloatL ((s.data.drop 2).filter (fun c => c ≠ ',')) with
    | some q => SyncPrice.val q
    | none => SyncPrice.inf

/-- EbayScraper.get_price (sync): strips the matched text, drops its first
four characters, removes every comma and parses; failure returns the inf
sentinel. -/
def syncEbayGetPrice (matched : Option String) : SyncPrice :=
  match matched with
  | none => SyncPrice.inf
  | some s =>
    match pyFloatL (((trimL s.data).drop 4).filter (fun c => c ≠ ',')) with
    | some q => SyncPrice.val q
    | none => SyncPrice.inf

/-- The closed set of supported platforms of both scraper factories. -/
inductive Platform
  | amazon
  | ebay
deriving DecidableEq

/-- Price extraction dispatched by platform tag, as the scraper lookup of
the async monitor. -/
def extractPrice : Platform → Option String → Option String → Option ℚ
  | Platform.amazon, m, _ => asyncAmazonGetPrice m
  | Platform.ebay, m, f => asyncEbayGetPrice m f

/-- Synchronous price extraction dispatched by platform tag. -/
def syncExtractPrice : Platform → Option String → SyncPrice
  | Platform.amazon, m => syncAmazonGetPrice m
  | Platform.ebay, m => syncEbayGetPrice m

example : pyFloat "1234.56" = some (mkRat 123456 100) := by decide
example : asyncAmazonGetPrice (some "$1,234.56") = some (mkRat 123456 100) := by decide
example : asyncAmazonGetPrice (some "1.234.56") = some (mkRat 23456 100) := by decide
example : asyncEbayGetPrice (some "1.234.56") none = none := by decide
example : asyncEbayGetPrice (some "$1,234.56") none = some (mkRat 123456 100) := by decide
example : syncAmazonGetPrice (some "$1,234.56") = SyncPrice.val (mkRat 23456 100) := by decide
example : syncAmazonGetPrice none = SyncPrice.inf := by decide
example : asyncAmazonGetPrice (some "$0.00") = some 0 := by decide

/-- Outcome of one HTTP GET attempt as seen by fetch_with_retry: a response
with a status code and a body, or a raised transient error of the caught
class, covering aiohttp.ClientError and asyncio.TimeoutError. -/
inductive Response
  | http (status : ℕ) (body : String)
  | exn
deriving DecidableEq

/-- The error surfaced by fetch_with_retry: the ClientResponseError that
raise_for_status produces for a status of at least 400 and that the final
attempt re-raises, the underlying transient error re-raised on the final
attempt, or the ValueError raised after the loop finishes all attempts. -/
inductive FetchError
  | httpError (status : ℕ)
  | networkError
  | retriesExhausted (attempts : ℕ)
deriving DecidableEq

deriving instance DecidableEq for Except

/-- Observable behaviour of one fetch_with_retry call: its result, how many
attempts were started, and the backoff waits it slept, in order. -/
structure FetchTrace where
  result : Except FetchError String
  attempts : ℕ
  waits : List ℚ
deriving DecidableEq

/-- One loop execution of AsyncPriceMonitor.fetch_with_retry starting at the
given attempt index with the given number of loop iterations left.  On a 200
the body is returned.  On a 503 the loop sleeps two to the attempt plus the
jitter and continues, also after the final attempt.  On another status
raise_for_status raises for a status of at least 400, but that exception is
an aiohttp.ClientError and is caught by the retry clause, which re-raises it
only on the final attempt and otherwise sleeps and continues; a non-200
status below 400 falls through the loop body with no raise and no sleep.  A
raised transient error is likewise re-raised on the final attempt and
otherwise followed by a sleep.  A loop that finishes all iterations raises
the ValueError reporting the attempt count. -/
def fetchGo (responses : ℕ → Response) (jitter : ℕ → ℚ) (max_retries : ℕ) :
    ℕ → ℕ → FetchTrace
  | 0, attempt => ⟨Except.error (FetchError.retriesExhausted max_retries), attempt, []⟩
  | remaining + 1, attempt =>
    match responses attempt with
    | Response.http status body =>
      if status = 200 then ⟨Except.ok body, attempt + 1, []⟩
      else if status = 503 then
        let t := fetchGo responses jitter max_retries remaining (attempt + 1)
        ⟨t.result, t.attempts, ((2 : ℚ) ^ attempt + jitter attempt) :: t.waits⟩
      else if 400 ≤ status then
        if attempt = max_retries - 1 then
          ⟨Except.error (FetchError.httpError status), attempt + 1, []⟩
        else
          let t := fetchGo responses jitter max_retries remaining (attempt + 1)
          ⟨t.result, t.attempts, ((2 : ℚ) ^ attempt + jitter attempt) :: t.waits⟩
      else
        let t := fetchGo responses jitter max_retries remaining (attempt + 1)
        ⟨t.result, t.attempts, t.waits⟩
    | Response.exn =>
      if attempt = max_retries - 1 then
        ⟨Except.error FetchError.networkError, attempt + 1, []⟩
      else
        let t := fetchGo responses jitter max_retries remaining (attempt + 1)
        ⟨t.result, t.attempts, ((2 : ℚ) ^ attempt + jitter attempt) :: t.waits⟩

/-- AsyncPriceMonitor.fetch_with_retry: run the attempt loop from attempt
zero.  The environment is the sequence of per-attempt outcomes and the
sampled jitter of random.uniform between one and three for each attempt. -/
def fetch_with_retry (responses : ℕ → Response) (jitter : ℕ → ℚ)
    (max_retries : ℕ) : FetchTrace :=
  fetchGo responses jitter max_retries max_retries 0

example :
    (fetch_with_retry (fun _ => Response.http 404 "") (fun _ => 2) 5).result =
      Except.error (FetchError.httpError 404) ∧
    (fetch_with_retry (fun _ => Response.http 404 "") (fun _ => 2) 5).attempts = 5 := by
  exact ⟨by decide, by decide⟩
example :
    (fetch_with_retry (fun _ => Response.http 503 "") (fun _ => 2) 3).result =
      Except.error (FetchError.retriesExhausted 3) := by decide
example :
    (fetch_with_retry (fun _ => Response.exn) (fun _ => 2) 3).result =
      Except.error FetchError.networkError := by decide
example :
    (fetch_with_retry (fun i => if i < 2 then Response.http 503 "" else Response.http 200 "ok")
      (fun _ => 2) 5).result = Except.ok "ok" := by decide

/-- The character class written in the regex of is_valid_url as capital
letters and digits, taken case-insensitively: an ASCII letter or digit. -/
def isAlnumA (c : Char) : Bool :=
  c.isAlpha || c.isDigit

/-- Characters that can occur inside the dotted-domain alternative of the
host part of the regex: letters, digits, hyphens and dots. -/
def isHostChar (c : Char) : Bool :=
  isAlnumA c || c = '-' || c = '.'

/-- Strip a literal pattern from the front of a character list, matching
case-insensitively as re.IGNORECASE does; returns the remainder on
success. -/
def stripCI : List Char → List Char → Option (List Char)
  | [], cs => some cs
  | _ :: _, [] => none
  | p :: ps, c :: cs => if c.toLower = p.toLower then stripCI ps cs else none

/-- Strip an exact literal pattern from the front of a character list. -/
def stripLit : List Char → List Char → Option (List Char)
  | [], cs => some cs
  | _ :: _, [] => none
  | p :: ps, c :: cs => if c = p then stripLit ps cs else none

/-- The scheme part of the regex: the literal http, an optional s, then the
literal colon slash slash, letters matched case-insensitively. -/
def schemeStrip (cs : List Char) : Option (List Char) :=
  match stripCI ['h', 't', 't', 'p'] cs with
  | none => none
  | some rest =>
    match rest with
    | [] => none
    | c :: rest' =>
      if c.toLower = 's' then stripLit [':', '/', '/'] rest'
      else stripLit [':', '/', '/'] rest

/-- The tail group of the regex: either an optional single slash, or a slash
or question mark followed by at least one non-whitespace character running
to the end. -/
def tailMatch : List Char → Bool
  | [] => true
  | c :: rest =>
    if rest.isEmpty then c = '/'
    else (c = '/' || c = '?') && rest.all (fun d => !d.isWhitespace)

/-- One or more digits followed by a position where the tail group matches;
every split of the digit run is tried, as regex backtracking does. -/
def digitsThenTail : List Char → Bool
  | [] => false
  | c :: rest => c.isDigit && (tailMatch rest || digitsThenTail rest)

/-- The optional port group followed by the tail group. -/
def portTail (cs : List Char) : Bool :=
  tailMatch cs ||
    (match cs with
     | ':' :: rest => digitsThenTail rest
     | _ => false)

/-- One to three digits followed by the continuation, trying every split as
regex backtracking does. -/
def matchDigits13 (cs : List Char) (k : List Char → Bool) : Bool :=
  match cs with
  | [] => false
  | c1 :: r1 =>
    c1.isDigit &&
      (k r1 ||
        match r1 with
        | [] => false
        | c2 :: r2 =>
          c2.isDigit &&
            (k r2 ||
              match r2 with
              | [] => false
              | c3 :: r3 => c3.isDigit && k r3))

/-- The dotted-quad alternative of the host, followed by port and tail. -/
def ipv4Alt (cs : List Char) : Bool :=
  matchDigits13 cs (fun r1 =>
    match r1 with
    | '.' :: r1' =>
      matchDigits13 r1' (fun r2 =>
        match r2 with
        | '.' :: r2' =>
          matchDigits13 r2' (fun r3 =>
            match r3 with
            | '.' :: r3' => matchDigits13 r3' portTail
            | _ => false)
        | _ => false)
    | _ => false)

/-- One domain label of the regex: a letter or digit, optionally followed by
up to sixty-one letters, digits or hyphens ending in a letter or digit. -/
def labelOk (l : List Char) : Bool :=
  match l with
  | [] => false
  | [c] => isAlnumA c
  | c :: rest =>
    isAlnumA c && rest.length ≤ 62 &&
      (match rest.getLast? with
       | some d => isAlnumA d && (rest.dropLast.all (fun e => isAlnumA e || e = '-'))
       | none => false)

/-- The top-level part of the domain alternative: two to six letters. -/
def tldOk (l : List Char) : Bool :=
  2 ≤ l.length && l.length ≤ 6 && l.all (fun c => c.isAlpha)

/-- The dotted-domain alternative on the maximal run of host characters: one
or more labels each ending in a dot, then a top-level part, then an optional
trailing dot which shows up as a final empty field of the dot split. -/
def domainOk (cs : List Char) : Bool :=
  let parts := splitOnDot cs
  let parts :=
    match parts.getLast? with
    | some [] => parts.dropLast
    | _ => parts
  match parts.reverse with
  | [] => false
  | tld :: labels => !labels.isEmpty && labels.all labelOk && tldOk tld

/-- The host group of the regex followed by port and tail.  The domain
alternative is decided on the maximal run of host characters: in any regex
match the host must end exactly where that run ends, because the characters
a host may contain never start the port or tail groups. -/
def hostPortTail (cs : List Char) : Bool :=
  (match stripCI ['l', 'o', 'c', 'a', 'l', 'h', 'o', 's', 't'] cs with
   | some rest => portTail rest
   | none => false) ||
  ipv4Alt cs ||
  (domainOk (cs.takeWhile isHostChar) && portTail (cs.dropWhile isHostChar))

/-- The full anchored pattern of DatabaseManager.is_valid_url applied at the
start of the string. -/
def urlCore (cs : List Char) : Bool :=
  match schemeStrip cs with
  | none => false
  | some rest => hostPortTail rest

/-- DatabaseManager.is_valid_url: re.search with the fully anchored pattern,
where the dollar anchor also matches just before one trailing newline. -/
def is_valid_url (url : String) : Bool :=
  urlCore url.data ||
    (if url.data.getLast? = some '\n' then urlCore url.data.dropLast else false)

/-- Follows the words of the spec, not the source, for comparison with the
source regex: a valid absolute URL has an http or https scheme, a host of
one or more nonempty dot-separated labels made of letters, digits and
hyphens with a letter or digit at both ends, an optional numeric port and an
optional non-whitespace path or query. -/
def specValidAbsoluteUrl (s : String) : Bool :=
  match schemeStrip s.data with
  | none => false
  | some rest =>
    let run := rest.takeWhile isHostChar
    let parts := splitOnDot run
    !parts.isEmpty && parts.all labelOk && portTail (rest.dropWhile isHostChar)

example : is_valid_url "http://example.com" = true := by decide
example : is_valid_url "https://example.com/product?id=3" = true := by decide
example : is_valid_url "HTTP://EXAMPLE.COM" = true := by decide
example : is_valid_url "http://localhost:8080/x" = true := by decide
example : is_valid_url "http://192.168.0.1/x" = true := by decide
example : is_valid_url "http://example.com." = true := by decide
example : is_valid_url "example.com" = false := by decide
example : is_valid_url "http://" = false := by decide
example : is_valid_url "http://:80" = false := by decide
example : is_valid_url "ftp://example.com" = false := by decide
example : is_valid_url "http://example.technology" = false := by decide
example : specValidAbsoluteUrl "http://example.technology" = true := by decide
example : is_valid_url "http://example.com\n" = true := by decide
example : is_valid_url "http://exa mple.com" = false := by decide

/-- One row of the products table. -/
structure ProductRow where
  id : ℕ
  url : String
  name : String
  platform : String
  desired_price : ℚ
deriving DecidableEq

/-- One row of the price_history table.  checked_at is the CURRENT_TIMESTAMP
default, modelled as a logical clock that strictly increases between
inserts; the one-second granularity of the real timestamp is not modelled. -/
structure HistoryRow where
  id : ℕ
  product_id : ℕ
  price : ℚ
  checked_at : ℕ
deriving DecidableEq

/-- The SQLite file behind DatabaseManager: both tables, the AUTOINCREMENT
counters, which never reuse an id, and the clock.  Foreign keys are not
enforced, matching the SQLite default the code runs under. -/
structure DBState where
  products : List ProductRow
  history : List HistoryRow
  nextProductId : ℕ
  nextHistoryId : ℕ
  clock : ℕ
deriving DecidableEq

/-- DatabaseManager.add_or_update_product: raise ValueError when
is_valid_url rejects, otherwise INSERT OR REPLACE, which deletes any row
with the same unique url and inserts a fresh row under a fresh
AUTOINCREMENT id, returning that id as lastrowid. -/
def add_or_update_product (st : DBState) (url name platform : String)
    (desired_price : ℚ) : Except String (DBState × ℕ) :=
  if is_valid_url url then
    Except.ok
      ({ st with
          products := st.products.filter (fun r => r.url ≠ url) ++
            [⟨st.nextProductId, url, name, platform, desired_price⟩],
          nextProductId := st.nextProductId + 1 },
        st.nextProductId)
  else Except.error "Invalid URL provided"

/-- DatabaseManager.add_price_history: insert a row stamped with the current
clock and return its id as lastrowid. -/
def add_price_history (st : DBState) (product_id : ℕ) (price : ℚ) :
    DBState × ℕ :=
  ({ st with
      history := st.history ++ [⟨st.nextHistoryId, product_id, price, st.clock⟩],
      nextHistoryId := st.nextHistoryId + 1,
      clock := st.clock + 1 },
    st.nextHistoryId)

/-- Insert a row into a list sorted by checked_at descending, keeping
earlier rows first among equal keys. -/
def insertByTimeDesc (r : HistoryRow) : List HistoryRow → List HistoryRow
  | [] => [r]
  | x :: xs =>
    if x.checked_at < r.checked_at then r :: x :: xs
    else x :: insertByTimeDesc r xs

/-- ORDER BY checked_at DESC as an insertion sort over the table rows. -/
def sortByTimeDesc (l : List HistoryRow) : List HistoryRow :=
  l.foldr insertByTimeDesc []

/-- DatabaseManager.get_price_history: the rows of the product, most recent
first, limited, projected to price and checked_at. -/
def get_price_history (st : DBState) (product_id : ℕ) (limit : ℕ) :
    List (ℚ × ℕ) :=
  ((sortByTimeDesc (st.history.filter (fun h => h.product_id = product_id))).take
      limit).map (fun h => (h.price, h.checked_at))

/-- Well-formedness carried by every state the manager can reach: every
stored timestamp is in the past of the clock, product ids are unique, and
every product id is below the AUTOINCREMENT counter. -/
def DBState.wf (st : DBState) : Bool :=
  st.history.all (fun h => h.checked_at < st.clock) &&
  (st.products.map (fun r => r.id)).Nodup &&
  st.products.all (fun r => r.id < st.nextProductId)

example :
    (add_price_history ⟨[⟨1, "http://a.com", "a", "amazon", 5⟩], [], 2, 1, 10⟩ 1 7).1.history =
      [⟨1, 1, 7, 10⟩] := by decide
example :
    get_price_history ((add_price_history ⟨[⟨1, "u", "a", "amazon", 5⟩], [⟨1, 1, 9, 4⟩], 2, 2, 10⟩ 1 7).1) 1 1 =
      [(7, 10)] := by decide

/-- The per-item environment of one AsyncPriceMonitor.check_price call: the
platform tag of the item, whether is_valid_url accepts its url, whether the
plain session.get of this path raises, the selector matches the parsed page
yields, and the desired price. -/
structure ItemInput where
  platform : Platform
  urlValid : Bool
  fetchErr : Bool
  priceMatched : Option String
  priceFallback : Option String
  desired : ℚ
deriving DecidableEq

/-- Outcome of one AsyncPriceMonitor.check_price call: the price appended to
price_history when the flow reached that insert and it succeeded, and
whether the final success log line was reached.  Title extraction also runs
on this path but is total and cannot change the control flow. -/
structure CheckResult where
  stored : Option ℚ
  okLogged : Bool
deriving DecidableEq

/-- AsyncPriceMonitor.check_price: the whole body runs under one try whose
except clause only logs, so no outcome escapes as an exception.  A fetch
failure stops the item.  The extracted price is passed to the store with no
validation; a missing price only fails because the NOT NULL column rejects
the Python None, after the upsert already ran.  When the price is below the
desired price the alert call raises AttributeError, because the async class
defines no send_mail method, so the final log line is not reached; the
history insert has already happened by then. -/
def check_price (it : ItemInput) : CheckResult :=
  if it.fetchErr then ⟨none, false⟩
  else
    let price := extractPrice it.platform it.priceMatched it.priceFallback
    if !it.urlValid then ⟨none, false⟩
    else
      match price with
      | none => ⟨none, false⟩
      | some p => if p < it.desired then ⟨some p, false⟩ else ⟨some p, true⟩

/-- AsyncPriceMonitor.check_prices: one check_price task per configured
item, gathered; since check_price never raises, the gather returns every
outcome, and the outcome of an item is a function of that item alone. -/
def check_prices (items : List ItemInput) : List CheckResult :=
  items.map check_price

/-- One loop iteration of SyncPriceMonitor.check_prices for one item,
projected to the value the iteration passes to add_price_history: none when
the iteration failed before that call, otherwise the synchronous scraper
output, which the code forwards with no validation, inf sentinel
included. -/
def sync_check_item (platform : Platform) (urlValid : Bool) (fetchErr : Bool)
    (priceMatched : Option String) : Option SyncPrice :=
  if fetchErr then none
  else if !urlValid then none
  else some (syncExtractPrice platform priceMatched)

/-- The validation block of AsyncPriceMonitor.check_single_price: a missing
price raises, a price equal to the float inf sentinel or not above zero
raises, otherwise the price is returned.  The inf comparison cannot fire on
an exactly parsed rational and is subsumed by the sign check here. -/
def check_single_price (fetchResult : Except FetchError String)
    (platform : Platform) (matched fallback : Option String) :
    Except String ℚ :=
  match fetchResult with
  | Except.error _ => Except.error "Unable to retrieve a valid price"
  | Except.ok _ =>
    match extractPrice platform matched fallback with
    | none => Except.error "Price could not be extracted from the page"
    | some p => if p ≤ 0 then Except.error "Invalid price value" else Except.ok p

example : check_price ⟨Platform.amazon, true, false, some "$10.00", none, 5⟩ =
    ⟨some 10, true⟩ := by decide
example : check_price ⟨Platform.amazon, true, false, none, none, 5⟩ =
    ⟨none, false⟩ := by decide
example : sync_check_item Platform.amazon true false none = some SyncPrice.inf := by decide
example : check_single_price (Except.ok "") Platform.amazon (some "$5.00") none =
    Except.ok 5 := by decide
example : check_single_price (Except.ok "") Platform.amazon (some "$0.00") none =
    Except.error "Invalid price value" := by decide

/-- The backoff sleeps of a run of consecutive failing attempts, starting at
the given attempt index. -/
def backoffWaits (jitter : ℕ → ℚ) : ℕ → ℕ → List ℚ
  | _, 0 => []
  | a, rem + 1 => ((2 : ℚ) ^ a + jitter a) :: backoffWaits jitter (a + 1) rem

theorem backoffWaits_length (jitter : ℕ → ℚ) :
    ∀ rem a, (backoffWaits jitter a rem).length = rem := by
  intro rem
  induction rem with
  | zero => intro a; rfl
  | succ rem ih => intro a; simp [backoffWaits, ih]

theorem backoffWaits_getElem (jitter : ℕ → ℚ) :
    ∀ rem a i, i < rem →
      (backoffWaits jitter a rem)[i]? = some ((2 : ℚ) ^ (a + i) + jitter (a + i)) := by
  intro rem
  induction rem with
  | zero => intro a i h; omega
  | succ rem ih =>
    intro a i h
    cases i with
    | zero => simp [backoffWaits]
    | succ i =>
      have hrec := ih (a + 1) i (by omega)
      have hidx : a + 1 + i = a + (i + 1) := by omega
      rw [hidx] at hrec
      simpa [backoffWaits] using hrec

theorem fetchGo_sustained_503 (responses : ℕ → Response) (bodies : ℕ → String)
    (jitter : ℕ → ℚ) (n : ℕ)
    (h503 : ∀ i, i < n → responses i = Response.http 503 (bodies i)) :
    ∀ rem a, a + rem = n →
      fetchGo responses jitter n rem a =
        ⟨Except.error (FetchError.retriesExhausted n), n, backoffWaits jitter a rem⟩ := by
  intro rem
  induction rem with
  | zero =>
    intro a ha
    simp only [fetchGo, backoffWaits]
    exact congrArg (fun m => FetchTrace.mk _ m _) (by omega)
  | succ rem ih =>
    intro a ha
    have hr : responses a = Response.http 503 (bodies a) := h503 a (by omega)
    have hrec := ih (a + 1) (by omega)
    simp [fetchGo, hr, hrec, backoffWaits]

theorem fetchGo_sustained_exn (responses : ℕ → Response) (jitter : ℕ → ℚ) (n : ℕ)
    (hexn : ∀ i, i < n → responses i = Response.exn) :
    ∀ rem a, a + rem = n → 0 < rem →
      (fetchGo responses jitter n rem a).result = Except.error FetchError.networkError := by
  intro rem
  induction rem with
  | zero => intro a ha h; omega
  | succ rem ih =>
    intro a ha _
    have hr : responses a = Response.exn := hexn a (by omega)
    rcases Nat.eq_zero_or_pos rem with h0 | hpos
    · subst h0
      have hlast : a = n - 1 := by omega
      subst hlast
      simp [fetchGo, hr]
    · have hne : ¬ a = n - 1 := by omega
      have hrec := ih (a + 1) (by omega) hpos
      simp [fetchGo, hr, hne, hrec]

/-- C1: the claim says that on a non-200, non-503 status such as 404 the
fetch fails on the first attempt with the non-retryable error and performs
no further attempts.  On the code, the exception that raise_for_status
raises for such a status is an aiohttp.ClientError and is caught by the
retry clause of the same loop, so a server answering 404 on every attempt is
queried max_retries times, with a backoff sleep between attempts, and the
HTTP error only surfaces on the final attempt. -/
theorem fetch_404_retried_all_attempts :
    (fetch_with_retry (fun _ => Response.http 404 "") (fun _ => 2) 5).attempts = 5 ∧
    (fetch_with_retry (fun _ => Response.http 404 "") (fun _ => 2) 5).result =
      Except.error (FetchError.httpError 404) ∧
    (fetch_with_retry (fun _ => Response.http 404 "") (fun _ => 2) 5).attempts ≠ 1 :=
  ⟨by decide, by decide, by decide⟩

/-- C6: a fetch whose server answers 503 on every attempt makes exactly
max_retries attempts, sleeps two to the attempt plus the sampled jitter of
random.uniform between one and three after each attempt, each sleep being at
least two to the attempt, and then raises the retries-exhausted error. -/
theorem fetch_sustained_503_retries_exhausted (responses : ℕ → Response)
    (bodies : ℕ → String) (jitter : ℕ → ℚ) (n : ℕ)
    (h503 : ∀ i, i < n → responses i = Response.http 503 (bodies i))
    (hjit : ∀ i, 1 ≤ jitter i ∧ jitter i ≤ 3) :
    (fetch_with_retry responses jitter n).attempts = n ∧
    (fetch_with_retry responses jitter n).result =
      Except.error (FetchError.retriesExhausted n) ∧
    (fetch_with_retry responses jitter n).waits.length = n ∧
    ∀ i, i < n →
      (fetch_with_retry responses jitter n).waits[i]? =
        some ((2 : ℚ) ^ i + jitter i) ∧
      ∀ w, (fetch_with_retry responses jitter n).waits[i]? = some w →
        (2 : ℚ) ^ i ≤ w := by
  have hgo := fetchGo_sustained_503 responses bodies jitter n h503 n 0 (by omega)
  unfold fetch_with_retry
  rw [hgo]
  refine ⟨rfl, rfl, backoffWaits_length jitter n 0, ?_⟩
  intro i hi
  have hget := backoffWaits_getElem jitter n 0 i hi
  rw [Nat.zero_add] at hget
  refine ⟨hget, ?_⟩
  intro w hw
  rw [hget] at hw
  have hw2 := Option.some.inj hw
  have hj := (hjit i).1
  linarith [hw2, hj]

theorem fetch_sustained_503_retries_exhausted_witness :
    (fetch_with_retry (fun _ => Response.http 503 "x") (fun _ => 2) 2).attempts = 2 ∧
    (fetch_with_retry (fun _ => Response.http 503 "x") (fun _ => 2) 2).result =
      Except.error (FetchError.retriesExhausted 2) :=
  ⟨(fetch_sustained_503_retries_exhausted (fun _ => Response.http 503 "x")
      (fun _ => "x") (fun _ => 2) 2 (fun _ _ => rfl) (fun _ => ⟨by norm_num, by norm_num⟩)).1,
   (fetch_sustained_503_retries_exhausted (fun _ => Response.http 503 "x")
      (fun _ => "x") (fun _ => 2) 2 (fun _ _ => rfl) (fun _ => ⟨by norm_num, by norm_num⟩)).2.1⟩

/-- C3: the claim says every fetch that exhausts its retry budget surfaces
the distinct retries-exhausted error, whether the attempts saw HTTP 503 or
transient network errors.  On the code this holds for sustained 503 only:
when the final attempt fails with a transient network or timeout error, that
underlying error is re-raised instead of the distinct ValueError. -/
theorem network_exhaustion_not_distinct_error :
    (fetch_with_retry (fun _ => Response.exn) (fun _ => 2) 5).result =
      Except.error FetchError.networkError ∧
    (fetch_with_retry (fun _ => Response.exn) (fun _ => 2) 5).result ≠
      Except.error (FetchError.retriesExhausted 5) :=
  ⟨by decide, by decide⟩

/-- C3 amended: exhausting the retry budget on sustained 503 surfaces the
retries-exhausted error, a constructor distinct from the non-retryable HTTP
error and from the network error; exhausting it on sustained transient
network errors re-raises the underlying network error on the final
attempt. -/
theorem fetch_exhaustion_error_kinds (responses : ℕ → Response)
    (bodies : ℕ → String) (jitter : ℕ → ℚ) (n : ℕ) (hn : 0 < n) :
    ((∀ i, i < n → responses i = Response.http 503 (bodies i)) →
      (fetch_with_retry responses jitter n).result =
        Except.error (FetchError.retriesExhausted n) ∧
      (∀ s, FetchError.retriesExhausted n ≠ FetchError.httpError s) ∧
      FetchError.retriesExhausted n ≠ FetchError.networkError) ∧
    ((∀ i, i < n → responses i = Response.exn) →
      (fetch_with_retry responses jitter n).result =
        Except.error FetchError.networkError) := by
  constructor
  · intro h503
    refine ⟨?_, fun s => by simp, by simp⟩
    rw [fetch_with_retry, fetchGo_sustained_503 responses bodies jitter n h503 n 0 (by omega)]
  · intro hexn
    exact fetchGo_sustained_exn responses jitter n hexn n 0 (by omega) hn

theorem fetch_exhaustion_error_kinds_witness :
    (fetch_with_retry (fun _ => Response.http 503 "b") (fun _ => 2) 3).result =
      Except.error (FetchError.retriesExhausted 3) ∧
    (fetch_with_retry (fun _ => Response.exn) (fun _ => 2) 3).result =
      Except.error FetchError.networkError :=
  ⟨((fetch_exhaustion_error_kinds (fun _ => Response.http 503 "b") (fun _ => "b")
      (fun _ => 2) 3 (by norm_num)).1 (fun _ _ => rfl)).1,
   (fetch_exhaustion_error_kinds (fun _ => Response.exn) (fun _ => "b")
      (fun _ => 2) 3 (by norm_num)).2 (fun _ _ => rfl)⟩

/-- C7: check_prices collects each item outcome independently: the outcome
at an item position is check_price of that item whatever the sibling items
do, and over three items where the middle extraction fails the first and
third items still store their prices and log success. -/
theorem check_prices_isolates_failures :
    (∀ (pre post : List ItemInput) (x : ItemInput),
        (check_prices (pre ++ x :: post))[pre.length]? = some (check_price x)) ∧
    check_prices
        [⟨Platform.amazon, true, false, some "$10.00", none, 5⟩,
         ⟨Platform.amazon, true, false, none, none, 5⟩,
         ⟨Platform.amazon, true, false, some "$30.00", none, 5⟩] =
      [⟨some 10, true⟩, ⟨none, false⟩, ⟨some 30, true⟩] := by
  constructor
  · intro pre post x
    induction pre with
    | nil => simp [check_prices]
    | cons a pre ih => simpa [check_prices] using ih
  · decide

/-- C2 counterexample: in the synchronous batch path with a valid url and a
successful fetch, a failed Amazon extraction produces the inf sentinel and
that very value is passed to add_price_history, so an infinite price does
reach the append-observation call of the record store. -/
theorem sync_batch_passes_inf_to_store :
    sync_check_item Platform.amazon true false none = some SyncPrice.inf := by decide

/-- C2 amended: only the single-item check path validates the price, the
accepted value being exactly the extracted one and above zero; the batch
paths forward the extracted value to the append-observation call with no
validation, so the sync path can pass the inf sentinel and the async path
can pass zero. -/
theorem price_validation_only_in_single_check :
    (∀ fr pl m f q, check_single_price fr pl m f = Except.ok q →
        0 < q ∧ extractPrice pl m f = some q) ∧
    (∀ pl m, sync_check_item pl true false m = some (syncExtractPrice pl m)) ∧
    (check_price ⟨Platform.amazon, true, false, some "$0.00", none, 5⟩).stored = some 0 := by
  refine ⟨?_, ?_, by decide⟩
  · intro fr pl m f q h
    cases fr with
    | error e => simp [check_single_price] at h
    | ok body =>
      cases hx : extractPrice pl m f with
      | none => simp [check_single_price, hx] at h
      | some p =>
        by_cases hp : p ≤ 0
        · simp [check_single_price, hx, hp] at h
        · simp only [check_single_price, hx] at h
          rw [if_neg hp] at h
          injection h with h2
          subst h2
          exact ⟨not_le.mp hp, rfl⟩
  · intro pl m
    simp [sync_check_item]

theorem price_validation_only_in_single_check_witness :
    0 < (5 : ℚ) ∧ extractPrice Platform.amazon (some "$5.00") none = some 5 :=
  price_validation_only_in_single_check.1 (Except.ok "") Platform.amazon
    (some "$5.00") none 5 (by decide)

/-- C4 counterexample: the eBay extractor performs no multi-dot
normalization, so on the matched text of the claim it fails to parse and
yields absent instead of the stated value. -/
theorem ebay_multidot_not_normalized :
    asyncEbayGetPrice (some "1.234.56") none = none ∧
    asyncEbayGetPrice (some "1.234.56") none ≠ some (mkRat 23456 100) :=
  ⟨by decide, by decide⟩

/-- C4 amended: in the Amazon async extractor, normalization strips every
character but digits and dots, leaves a text with at most one dot unchanged,
parses the single-dot example to its decimal, and with more than one dot
keeps the last two dot-separated fields, so the two-dot example parses to
the field pair value; the eBay async extractor only strips, so the one-dot
example parses but the two-dot example yields absent. -/
theorem price_normalization_per_extractor :
    (∀ s : String, ((stripPrice (trimL s.data)).filter (fun c => c = '.')).length ≤ 1 →
        amazonNormalize s.data = stripPrice (trimL s.data)) ∧
    asyncAmazonGetPrice (some "$1,234.56") = some (mkRat 123456 100) ∧
    asyncAmazonGetPrice (some "1.234.56") = some (mkRat 23456 100) ∧
    asyncEbayGetPrice (some "$1,234.56") none = some (mkRat 123456 100) ∧
    asyncEbayGetPrice (some "1.234.56") none = none := by
  refine ⟨?_, by decide, by decide, by decide, by decide⟩
  intro s h
  simp only [amazonNormalize, multiDotFix]
  rw [if_neg (by omega)]

theorem price_normalization_per_extractor_witness :
    amazonNormalize "$1,234.56".data = stripPrice (trimL "$1,234.56".data) :=
  price_normalization_per_extractor.1 "$1,234.56" (by decide)

/-- C5 counterexample: on a document where no strategy matches, the
synchronous extractors return the float inf sentinel, a numeric value, not
the absent value the claim requires of every supported extractor. -/
theorem sync_extractors_fail_to_inf :
    syncAmazonGetPrice none = SyncPrice.inf ∧ syncEbayGetPrice none = SyncPrice.inf :=
  ⟨by decide, by decide⟩

/-- C5 amended: the async extractors return absent when no strategy matches
or the matched text fails to parse; the sync extractors return the inf
sentinel in those cases instead of absent. -/
theorem extraction_absent_vs_inf_sentinel :
    asyncAmazonGetPrice none = none ∧
    (∀ s, pyFloatCore (amazonNormalize s.data) = none →
        asyncAmazonGetPrice (some s) = none) ∧
    asyncEbayGetPrice none none = none ∧
    (∀ s, pyFloatCore (stripPrice (trimL s.data)) = none →
        asyncEbayGetPrice (some s) none = none) ∧
    (∀ s, pyFloatL ((s.data.drop 2).filter (fun c => c ≠ ',')) = none →
        syncAmazonGetPrice (some s) = SyncPrice.inf) ∧
    (∀ s, pyFloatL (((trimL s.data).drop 4).filter (fun c => c ≠ ',')) = none →
        syncEbayGetPrice (some s) = SyncPrice.inf) := by
  refine ⟨rfl, ?_, rfl, ?_, ?_, ?_⟩
  · intro s h; simp [asyncAmazonGetPrice, h]
  · intro s h; simp [asyncEbayGetPrice, h]
  · intro s h
    simp only [syncAmazonGetPrice]
    rw [h]
  · intro s h
    simp only [syncEbayGetPrice]
    rw [h]

theorem extraction_absent_vs_inf_sentinel_witness :
    asyncAmazonGetPrice (some "No price here") = none ∧
    syncAmazonGetPrice (some "No price here") = SyncPrice.inf :=
  ⟨extraction_absent_vs_inf_sentinel.2.1 "No price here" (by decide),
   extraction_absent_vs_inf_sentinel.2.2.2.2.1 "No price here" (by decide)⟩

theorem insertByTimeDesc_older (x r : HistoryRow) (t : List HistoryRow)
    (h : x.checked_at < r.checked_at) :
    insertByTimeDesc x (r :: t) = r :: insertByTimeDesc x t := by
  simp only [insertByTimeDesc]
  rw [if_neg (by omega)]

theorem foldr_insert_newest (r : HistoryRow) :
    ∀ l : List HistoryRow, (∀ x ∈ l, x.checked_at < r.checked_at) →
      List.foldr insertByTimeDesc [r] l = r :: sortByTimeDesc l := by
  intro l
  induction l with
  | nil => intro _; rfl
  | cons a l ih =>
    intro h
    have ha := h a (by simp)
    have hrec := ih (fun x hx => h x (by simp [hx]))
    simp only [List.foldr_cons, hrec]
    rw [insertByTimeDesc_older a r _ ha]
    simp [sortByTimeDesc]

theorem sortByTimeDesc_append_newest (l : List HistoryRow) (r : HistoryRow)
    (h : ∀ x ∈ l, x.checked_at < r.checked_at) :
    sortByTimeDesc (l ++ [r]) = r :: sortByTimeDesc l := by
  unfold sortByTimeDesc
  rw [List.foldr_append]
  exact foldr_insert_newest r l h

/-- C9: on a well-formed store state holding the product, appending an
observation of a price and reading the history of that product with limit
one returns exactly the just-inserted price, stamped with the insertion
time, most recent first. -/
theorem append_observation_roundtrip (st : DBState) (pid : ℕ) (p : ℚ)
    (hwf : st.wf = true) (_hpid : ∃ r ∈ st.products, r.id = pid) :
    get_price_history (add_price_history st pid p).1 pid 1 = [(p, st.clock)] := by
  have hwf' := hwf
  simp only [DBState.wf, Bool.and_eq_true, List.all_eq_true, decide_eq_true_eq] at hwf'
  have hts := hwf'.1.1
  have hfil : ∀ x ∈ st.history.filter (fun h => h.product_id = pid),
      x.checked_at < st.clock := fun x hx => hts x (List.mem_of_mem_filter hx)
  simp only [add_price_history, get_price_history, List.filter_append]
  rw [show List.filter (fun h => decide (h.product_id = pid))
      [HistoryRow.mk st.nextHistoryId pid p st.clock] =
      [HistoryRow.mk st.nextHistoryId pid p st.clock] from by simp]
  rw [sortByTimeDesc_append_newest _ _ hfil]
  simp

theorem append_observation_roundtrip_witness :
    get_price_history
        (add_price_history
          (⟨[⟨1, "http://a.com", "a", "amazon", 5⟩], [⟨1, 1, 9, 4⟩], 2, 2, 10⟩ : DBState)
          1 7).1 1 1 = [(7, 10)] :=
  append_observation_roundtrip
    (⟨[⟨1, "http://a.com", "a", "amazon", 5⟩], [⟨1, 1, 9, 4⟩], 2, 2, 10⟩ : DBState)
    1 7 (by decide) (by decide)

/-- C10: calling add_or_update_product on a url already present replaces the
row through INSERT OR REPLACE and returns a fresh AUTOINCREMENT id different
from the id the url had, while the price_history rows are untouched, so the
history rows of that url keep referencing a product id that no longer exists
in the products table. -/
theorem upsert_orphans_price_history (st : DBState) (url name platform : String)
    (d : ℚ) (r : ProductRow) (hmem : r ∈ st.products) (hurl : r.url = url)
    (hwf : st.wf = true) (hvalid : is_valid_url url = true) :
    ∃ st' newId,
      add_or_update_product st url name platform d = Except.ok (st', newId) ∧
      newId ≠ r.id ∧ (∀ q ∈ st'.products, q.id ≠ r.id) ∧ st'.history = st.history := by
  have hwf' := hwf
  simp only [DBState.wf, Bool.and_eq_true, List.all_eq_true, decide_eq_true_eq] at hwf'
  have hnodup : (st.products.map (fun rr => rr.id)).Nodup := hwf'.1.2
  have hbound : ∀ q ∈ st.products, q.id < st.nextProductId := hwf'.2
  refine ⟨{ st with
      products := st.products.filter (fun rr => rr.url ≠ url) ++
        [⟨st.nextProductId, url, name, platform, d⟩],
      nextProductId := st.nextProductId + 1 },
    st.nextProductId, ?_, ?_, ?_, rfl⟩
  · simp [add_or_update_product, hvalid]
  · have := hbound r hmem
    omega
  · intro q hq
    rcases List.mem_append.mp hq with hq | hq
    · have hq1 : q ∈ st.products := List.mem_of_mem_filter hq
      have hq2 : ¬ (q.url = url) := by simpa using List.of_mem_filter hq
      intro heq
      have hqr : q = r :=
        List.inj_on_of_nodup_map hnodup hq1 hmem (by simpa using heq)
      exact hq2 (hqr ▸ hurl)
    · simp only [List.mem_singleton] at hq
      subst hq
      have := hbound r hmem
      simp only []
      omega

theorem upsert_orphans_price_history_witness :
    ∃ st' newId,
      add_or_update_product
          (⟨[⟨1, "http://a.com", "a", "amazon", 5⟩], [⟨1, 1, 9, 4⟩], 2, 2, 10⟩ : DBState)
          "http://a.com" "b" "amazon" 6 = Except.ok (st', newId) ∧
      newId ≠ 1 ∧ (∀ q ∈ st'.products, q.id ≠ 1) ∧
      st'.history = [⟨1, 1, 9, 4⟩] :=
  upsert_orphans_price_history
    (⟨[⟨1, "http://a.com", "a", "amazon", 5⟩], [⟨1, 1, 9, 4⟩], 2, 2, 10⟩ : DBState)
    "http://a.com" "b" "amazon" 6 ⟨1, "http://a.com", "a", "amazon", 5⟩
    (by decide) rfl (by decide) (by decide)

/-- The string carries the http or https scheme prefix at the position where
the anchored search can match. -/
def hasHttpScheme (s : String) : Bool :=
  (schemeStrip s.data).isSome ||
    (if s.data.getLast? = some '\n' then (schemeStrip s.data.dropLast).isSome else false)

/-- After the scheme the string is over, or continues with a port, path or
query delimiter: no host is present. -/
def noHostAfterScheme (cs : List Char) : Bool :=
  match schemeStrip cs with
  | none => false
  | some [] => true
  | some (c :: _) => c = ':' || c = '/' || c = '?'

/-- No host after the scheme, also in the variant the trailing-newline match
of the dollar anchor would examine. -/
def noHostStr (s : String) : Bool :=
  noHostAfterScheme s.data &&
    (if s.data.getLast? = some '\n' then noHostAfterScheme s.data.dropLast else true)

theorem hostPortTail_no_host (c : Char) (t : List Char)
    (h : c = ':' ∨ c = '/' ∨ c = '?') : hostPortTail (c :: t) = false := by
  have d1 : domainOk [] = false := by decide
  rcases h with h | h | h <;> subst h <;>
    simp [hostPortTail, stripCI, ipv4Alt, matchDigits13, List.takeWhile_cons, d1,
      show ¬(':'.toLower = 'l'.toLower) from by decide,
      show ¬('/'.toLower = 'l'.toLower) from by decide,
      show ¬('?'.toLower = 'l'.toLower) from by decide,
      show (':'.isDigit) = false from by decide,
      show ('/'.isDigit) = false from by decide,
      show ('?'.isDigit) = false from by decide,
      show isHostChar ':' = false from by decide,
      show isHostChar '/' = false from by decide,
      show isHostChar '?' = false from by decide]

theorem urlCore_eq_false_of_schemeStrip_none (cs : List Char)
    (h : schemeStrip cs = none) : urlCore cs = false := by
  simp [urlCore, h]

theorem urlCore_eq_false_of_no_host (cs : List Char)
    (h : noHostAfterScheme cs = true) : urlCore cs = false := by
  unfold urlCore
  unfold noHostAfterScheme at h
  cases hs : schemeStrip cs with
  | none => simp
  | some rest =>
    rw [hs] at h
    cases rest with
    | nil => exact (by decide : hostPortTail [] = false)
    | cons c t =>
      simp at h
      exact hostPortTail_no_host c t (or_assoc.mp h)

/-- C8 counterexample: a valid absolute http url whose host has a top-level
label longer than six letters satisfies the spec notion of a well-formed
absolute url but is rejected by the source regex. -/
theorem url_regex_rejects_valid_url :
    specValidAbsoluteUrl "http://example.technology" = true ∧
    is_valid_url "http://example.technology" = false :=
  ⟨by decide, by decide⟩

/-- C8 amended: is_valid_url rejects every string lacking the http or https
scheme prefix and every string with no host material after the scheme, and
add_or_update_product raises the invalid-url error, storing nothing, exactly
when is_valid_url rejects; but is_valid_url only accepts hosts shaped as a
dotted domain with a two-to-six-letter final label, localhost, or a dotted
quad, so some valid absolute http or https urls are rejected. -/
theorem url_validation_amended :
    (∀ s : String, hasHttpScheme s = false → is_valid_url s = false) ∧
    (∀ s : String, noHostStr s = true → is_valid_url s = false) ∧
    (∀ (st : DBState) (url name platform : String) (d : ℚ),
      (is_valid_url url = false →
        add_or_update_product st url name platform d =
          Except.error "Invalid URL provided") ∧
      (is_valid_url url = true →
        ∃ st' newId,
          add_or_update_product st url name platform d = Except.ok (st', newId))) := by
  refine ⟨?_, ?_, ?_⟩
  · intro s h
    rw [hasHttpScheme, Bool.or_eq_false_iff] at h
    obtain ⟨h1, h2⟩ := h
    rw [is_valid_url, Bool.or_eq_false_iff]
    refine ⟨?_, ?_⟩
    · cases hval : schemeStrip s.data with
      | some r => rw [hval] at h1; simp at h1
      | none => exact urlCore_eq_false_of_schemeStrip_none _ hval
    · by_cases hl : s.data.getLast? = some '\n'
      · rw [if_pos hl]
        rw [if_pos hl] at h2
        cases hval : schemeStrip s.data.dropLast with
        | some r => rw [hval] at h2; simp at h2
        | none => exact urlCore_eq_false_of_schemeStrip_none _ hval
      · rw [if_neg hl]
  · intro s h
    rw [noHostStr, Bool.and_eq_true] at h
    obtain ⟨h1, h2⟩ := h
    rw [is_valid_url, Bool.or_eq_false_iff]
    refine ⟨urlCore_eq_false_of_no_host _ h1, ?_⟩
    by_cases hl : s.data.getLast? = some '\n'
    · rw [if_pos hl]
      rw [if_pos hl] at h2
      exact urlCore_eq_false_of_no_host _ h2
    · rw [if_neg hl]
  · intro st url name platform d
    constructor
    · intro h; simp [add_or_update_product, h]
    · intro h
      refine ⟨{ st with
          products := st.products.filter (fun rr => rr.url ≠ url) ++
            [⟨st.nextProductId, url, name, platform, d⟩],
          nextProductId := st.nextProductId + 1 }, st.nextProductId, ?_⟩
      simp [add_or_update_product, h]

theorem url_validation_amended_witness :
    is_valid_url "example.com" = false ∧
    is_valid_url "http://" = false ∧
    add_or_update_product (⟨[], [], 1, 1, 0⟩ : DBState) "not a url" "n" "amazon" 5 =
      Except.error "Invalid URL provided" :=
  ⟨url_validation_amended.1 "example.com" (by decide),
   url_validation_amended.2.1 "http://" (by decide),
   (url_validation_amended.2.2 (⟨[], [], 1, 1, 0⟩ : DBState) "not a url" "n" "amazon" 5).1
     (by decide)⟩
